import Mathlib

/-!
# Verification of the L2→L1 dynamic causal-effect estimation engine

Shallow embedding of the estimation core of this repository:
* `src/src/models/its_levels.py` — the levels/dynamics regression engine
  (`ITSLevelsEstimator` and its estimation operations),
* `src/src/analysis/11_ecm.py` — the cointegration / error-correction
  component (`estimate_ecm`, the Engle–Granger gate in `main`,
  `johansen_tests`, `save_latex_ecm`),
* `src/src/analysis/12_irf_local_projections.py` — the local-projection
  impulse-response component (`compute_cumulative`,
  `moving_block_bootstrap_irf`).

Modelling conventions:
* Numeric series are real-valued (`ℝ`); a missing value (pandas `NaN`)
  in a data-frame cell is `Option.none`.  Scalar results that the Python
  code deliberately sets to `np.nan` / `-inf` are modelled by the
  three-constructor type `PyR` below, so that "NaN" and "-inf" are
  first-class observable outcomes, exactly as `np.isfinite` observes them.
* A pandas `DataFrame` is a `Frame`: an association list of named columns,
  all of equal length (each column a `List (Option ℝ)`).  `shift`, `diff`,
  `dropna` mirror the pandas operations used by the source.
* External library calls (statsmodels OLS/HAC fits, Ljung–Box, White test,
  Durbin–Watson, numpy's PRNG and percentile) are not code of this
  repository; they are passed in as explicit function parameters
  (`Stats`, `EcmFit`, `RngImpl`, …).  Every theorem that depends on them
  quantifies over, or concretely instantiates, these parameters.
  Everything the repository itself computes (column construction,
  row-dropping, sample sizes, bandwidth formulas, gating conditions,
  record fields, derived quantities such as semi-elasticities, long-run
  multipliers and half-lives) is embedded explicitly.
-/

namespace L2L1

/-- Model of a Python float as observed by the source (`np.isfinite` /
`np.isnan` checks): a finite real, `NaN`, or `-inf` (the only infinity the
analysed code can produce, via `np.log(0.5)/np.log(1.0)`). -/
inductive PyR where
  | num (x : ℝ)
  | nan
  | neginf

/-- `np.isfinite` on a `PyR`. -/
def PyR.isFinite : PyR → Bool
  | .num _ => true
  | .nan => false
  | .neginf => false

/-- A data-frame column: one `Option ℝ` per row, `none` = pandas `NaN`. -/
abbrev Col := List (Option ℝ)

/-- A pandas `DataFrame`: named columns of equal length. -/
abbrev Frame := List (String × Col)

namespace Frame

/-- Column lookup (`df[name]`); a missing column is the empty series. -/
def get (f : Frame) (name : String) : Col :=
  (f.lookup name).getD []

/-- Column membership (`name in df.columns`). -/
def hasCol (f : Frame) (name : String) : Bool :=
  (f.lookup name).isSome

/-- Column assignment `df[name] = col`: replaces the column in place if it
exists, else appends it (pandas dict-like assignment). -/
def setCol (f : Frame) (name : String) (col : Col) : Frame :=
  if f.hasCol name then
    f.map (fun p => if p.1 = name then (name, col) else p)
  else
    f ++ [(name, col)]

/-- Number of rows (all columns share it by the frame invariant). -/
def nRows (f : Frame) : Nat :=
  match f with
  | [] => 0
  | c :: _ => c.2.length

/-- The value of column `c` at row `i` (out-of-range reads as missing). -/
def cellAt (c : Col) (i : Nat) : Option ℝ :=
  (c.get? i).getD none

/-- Row indices kept by `df.dropna()` restricted to the columns `names`
(pandas `dropna(subset=names)`): a row survives iff every listed column is
non-missing there.  Columns not present in the frame are ignored, matching
pandas' behaviour for `subset` entries produced by the source (it only
passes names of columns it just created). -/
def keptRows (f : Frame) (names : List String) (n : Nat) : List Nat :=
  (List.range n).filter (fun i =>
    names.all (fun nm => !(f.hasCol nm) || (cellAt (f.get nm) i).isSome))

/-- `df.dropna(subset=names)`. -/
def dropnaSubset (f : Frame) (names : List String) : Frame :=
  let keep := keptRows f names (nRows f)
  f.map (fun c => (c.1, keep.map (fun i => cellAt c.2 i)))

/-- `df.dropna()`: drop every row with a missing value in any column. -/
def dropna (f : Frame) : Frame :=
  dropnaSubset f (f.map (·.1))

/-- The (non-missing) values of a column, as used after a `dropna` that
guarantees presence. -/
def vals (c : Col) : List ℝ := c.map (fun v => v.getD 0)

end Frame

/-- pandas `Series.shift(k)`: `k` leading `NaN`s, the tail truncated. -/
def shiftCol (k : Nat) (c : Col) : Col :=
  List.replicate k none ++ c.take (c.length - k)

/-- Subtraction of optionally-missing values (`NaN` propagates). -/
def optSub : Option ℝ → Option ℝ → Option ℝ
  | some a, some b => some (a - b)
  | _, _ => none

/-- pandas `Series.diff()`: `s[i] - s[i-1]`, first row `NaN`. -/
def diffCol (c : Col) : Col :=
  List.zipWith optSub c (shiftCol 1 c)

/-! ## Levels/Dynamics regression engine (`src/src/models/its_levels.py`)

`ITSLevelsEstimator` holds a mutable `self.data` frame and a
`self.diagnostics` dict; each `estimate_*` method manipulates the frame,
calls statsmodels, and returns a result dict.  The statsmodels fits are
external collaborators, abstracted as the `Stats` parameter below. -/

/-- What the source reads off a statsmodels `RegressionResults`:
named coefficients, standard errors, p-values, confidence-interval rows,
residuals, and R². -/
structure FitResult where
  params : String → ℝ
  bse : String → ℝ
  pvalues : String → ℝ
  ciLower : String → ℝ
  ciUpper : String → ℝ
  resid : List ℝ
  rsquared : ℝ
  rsquaredAdj : ℝ

/-- A fit on raw numeric arrays (used by `estimate_fgls` after the
Prais–Winsten transform): coefficients/SEs are indexed positionally. -/
structure ArrFit where
  params : List ℝ
  bse : List ℝ
  resid : List ℝ

/-- The external statistical library (statsmodels): a deterministic
implementation of the fitting and diagnostic routines the estimator calls.
`olsFit`/`hacFit` take the (already row-filtered) data, the regressor
column names and the outcome column name; `hacFit` also takes the Bartlett
HAC bandwidth the source passes as `maxlags`. -/
structure Stats where
  olsFit : Frame → List String → String → FitResult
  hacFit : Frame → List String → String → Nat → FitResult
  olsArr : List (List ℝ) → List ℝ → ArrFit
  ljungBox : List ℝ → Nat → List ℝ × List ℝ
  hetWhite : List ℝ → List (List ℝ) → ℝ × ℝ
  durbinWatson : List ℝ → ℝ

/-- The three residual diagnostics `_run_diagnostics` stores on
`self.diagnostics` (Ljung–Box stats/p-values, White statistic/p-value,
Durbin–Watson). -/
structure DiagSet where
  lbStat : List ℝ
  lbP : List ℝ
  whiteStat : ℝ
  whiteP : ℝ
  dw : ℝ

/-- State of an `ITSLevelsEstimator` instance after `__init__` ran
`_prepare_data`: the (regime/calendar-annotated) panel in `self.data`,
the configured column names, and the shared `self.diagnostics` store
(empty until some operation fills it). -/
structure ITSState where
  data : Frame
  outcome : String
  treatment : String
  diagnostics : Option DiagSet

/-- Semi-elasticity transform `100 * (exp(0.10*β) - 1)`
(lines 174–175 / 259 / 329 / 397 / 551 of `its_levels.py`). -/
noncomputable def semiElasticity (beta : ℝ) : ℝ :=
  (Real.exp (0.10 * beta) - 1) * 100

/-- `_delta_method_se` (lines 681–697): `10 * exp(0.10*β) * SE(β)`. -/
noncomputable def delta_method_se (beta seBeta : ℝ) : ℝ :=
  (10 * Real.exp (0.10 * beta)) * seBeta

/-- Andrews-style automatic HAC bandwidth `int(4 * (n/100)**(2/9))`. -/
noncomputable def hacBandwidth (n : Nat) : Nat :=
  Nat.floor ((4 : ℝ) * ((n : ℝ) / 100) ^ ((2 : ℝ) / 9))

/-- The patsy design matrix rows: an intercept column of ones followed by
the requested regressor columns (missing cells read as 0; the source only
builds this after all relevant rows were dropped). -/
def designRows (f : Frame) (cols : List String) : List (List ℝ) :=
  (List.range f.nRows).map (fun i =>
    1 :: cols.map (fun c => (Frame.cellAt (f.get c) i).getD 0))

/-- `_run_diagnostics` (lines 699–741): Ljung–Box at 10 lags, White test
on the model exog, Durbin–Watson; the results overwrite
`self.diagnostics`. -/
def run_diagnostics (S : Stats) (fit : FitResult) (exog : List (List ℝ)) :
    DiagSet :=
  let lb := S.ljungBox fit.resid 10
  let white := S.hetWhite fit.resid exog
  { lbStat := lb.1, lbP := lb.2, whiteStat := white.1, whiteP := white.2,
    dw := S.durbinWatson fit.resid }

/-- The result dict of `estimate_main_spec` (`self.results['main_effect']`). -/
structure MainRecord where
  beta : ℝ
  se : ℝ
  ciLower : ℝ
  ciUpper : ℝ
  pvalue : ℝ
  semiElasticity : ℝ
  semiSe : ℝ
  bandwidth : Nat
  nObs : Nat
  rsquared : ℝ
  rsquaredAdj : ℝ

/-- Regressors of the main levels formula (lines 135–145). -/
def mainXcols (st : ITSState) (useTimeTrend : Bool) : List String :=
  [st.treatment, "D_star", "regime_merge", "regime_dencun",
    "is_weekend", "is_month_end"] ++ (if useTimeTrend then ["time_trend"] else [])

/-- The estimation sample of the main spec: patsy's `dmatrices` drops rows
with a missing value in any formula column. -/
def mainUsed (st : ITSState) (useTimeTrend : Bool) : Frame :=
  st.data.dropnaSubset (st.outcome :: mainXcols st useTimeTrend)

/-- `estimate_main_spec` (lines 120–208): OLS + HAC on
`outcome ~ treatment + D_star + regimes + calendar [+ trend]`;
`_run_diagnostics` is run on the OLS fit and stored on
`self.diagnostics`. -/
noncomputable def estimate_main_spec (S : Stats) (useTimeTrend : Bool)
    (st : ITSState) : MainRecord × ITSState :=
  let xcols := mainXcols st useTimeTrend
  let used := mainUsed st useTimeTrend
  let n := used.nRows
  let bandwidth := hacBandwidth n
  let olsRes := S.olsFit used xcols st.outcome
  let hacRes := S.hacFit used xcols st.outcome bandwidth
  let beta := hacRes.params st.treatment
  let se := hacRes.bse st.treatment
  let record : MainRecord :=
    { beta := beta, se := se,
      ciLower := hacRes.ciLower st.treatment,
      ciUpper := hacRes.ciUpper st.treatment,
      pvalue := hacRes.pvalues st.treatment,
      semiElasticity := semiElasticity beta,
      semiSe := delta_method_se beta se,
      bandwidth := bandwidth, nObs := n,
      rsquared := olsRes.rsquared, rsquaredAdj := olsRes.rsquaredAdj }
  (record, { st with diagnostics := some (run_diagnostics S olsRes (designRows used xcols)) })

/-- The result dict of `estimate_distributed_lags`
(`self.results['distributed_lags']`, sans the raw model object). -/
structure DLRecord where
  contemporaneous : ℝ
  lagCoefs : List (Nat × ℝ)
  longRunEffect : ℝ
  longRunSemi : ℝ
  nObs : Nat

/-- The lag-column name `f'{treatment}_lag{lag}'`. -/
def lagName (treatment : String) (lag : Nat) : String :=
  treatment ++ "_lag" ++ toString lag

/-- `estimate_distributed_lags` (lines 210–278): writes the lag columns
into `self.data` (shared, mutable), fits on `self.data.dropna()` (every
column participates in the row drop), sums contemporaneous and lag
coefficients into the long-run effect.  `self.diagnostics` is untouched. -/
noncomputable def estimate_distributed_lags (S : Stats) (lags : List Nat)
    (st : ITSState) : DLRecord × ITSState :=
  let data1 := lags.foldl
    (fun d l => d.setCol (lagName st.treatment l) (shiftCol l (d.get st.treatment)))
    st.data
  let lagNames := lags.map (lagName st.treatment)
  let xcols := st.treatment :: lagNames ++
    ["D_star", "regime_merge", "regime_dencun", "is_weekend", "is_month_end"]
  let used := data1.dropna
  let n := used.nRows
  let fit := S.hacFit used xcols st.outcome (hacBandwidth n)
  let longRun := fit.params st.treatment + (lagNames.map fit.params).sum
  let record : DLRecord :=
    { contemporaneous := fit.params st.treatment,
      lagCoefs := lags.map (fun l => (l, fit.params (lagName st.treatment l))),
      longRunEffect := longRun,
      longRunSemi := semiElasticity longRun,
      nObs := n }
  (record, { st with data := data1 })

/-- The result dict of `estimate_koyck_lag` (`self.results['koyck']`).
`longRunEffect`/`longRunSemi` are `np.nan` when ρ ≥ 1 (lines 327–332),
hence `PyR`-valued. -/
structure KoyckRecord where
  rho : ℝ
  shortRun : ℝ
  longRunEffect : PyR
  longRunSemi : PyR
  adjustmentSpeed : ℝ
  nObs : Nat

/-- `self.data` after `estimate_koyck_lag` wrote the lagged outcome column
(line 295). -/
def koyckData (st : ITSState) : Frame :=
  st.data.setCol "log_base_fee_lag1" (shiftCol 1 (st.data.get st.outcome))

/-- Regressors of the Koyck formula (lines 299–303). -/
def koyckXcols (st : ITSState) (useTimeTrend : Bool) : List String :=
  "log_base_fee_lag1" :: st.treatment ::
    ["D_star", "regime_merge", "regime_dencun", "is_weekend", "is_month_end"] ++
    (if useTimeTrend then ["time_trend"] else [])

/-- The Koyck estimation sample: `self.data.dropna()` (line 306) — every
column of the shared frame participates in the row drop. -/
def koyckUsed (st : ITSState) : Frame := (koyckData st).dropna

/-- The HAC fit of the Koyck regression. -/
noncomputable def koyckFit (S : Stats) (useTimeTrend : Bool) (st : ITSState) :
    FitResult :=
  S.hacFit (koyckUsed st) (koyckXcols st useTimeTrend) st.outcome
    (hacBandwidth (koyckUsed st).nRows)

/-- The estimated persistence ρ (coefficient on the lagged outcome). -/
noncomputable def koyckRho (S : Stats) (useTimeTrend : Bool) (st : ITSState) : ℝ :=
  (koyckFit S useTimeTrend st).params "log_base_fee_lag1"

/-- The estimated short-run effect (coefficient on the treatment). -/
noncomputable def koyckShort (S : Stats) (useTimeTrend : Bool) (st : ITSState) : ℝ :=
  (koyckFit S useTimeTrend st).params st.treatment

/-- `estimate_koyck_lag` (lines 280–352): writes the lagged outcome column
into `self.data` (shared, mutable), fits on `self.data.dropna()`, and sets
`long_run = short_run/(1-ρ)` when ρ < 1, else `np.nan`.
`self.diagnostics` is untouched. -/
noncomputable def estimate_koyck_lag (S : Stats) (useTimeTrend : Bool)
    (st : ITSState) : KoyckRecord × ITSState :=
  let data1 := koyckData st
  let used := koyckUsed st
  let n := used.nRows
  let rho := koyckRho S useTimeTrend st
  let shortRun := koyckShort S useTimeTrend st
  let record : KoyckRecord :=
    { rho := rho, shortRun := shortRun,
      longRunEffect :=
        if rho < 1 then PyR.num (shortRun / (1 - rho)) else PyR.nan,
      longRunSemi :=
        if rho < 1 then PyR.num (semiElasticity (shortRun / (1 - rho))) else PyR.nan,
      adjustmentSpeed := 1 - rho,
      nObs := n }
  (record, { st with data := data1 })

/-- Arithmetic mean of a list. -/
noncomputable def listMean (l : List ℝ) : ℝ := l.sum / l.length

/-- `np.corrcoef(a, b)[0, 1]`: the Pearson sample correlation. -/
noncomputable def sampleCorr (a b : List ℝ) : ℝ :=
  let ma := listMean a
  let mb := listMean b
  (List.zipWith (fun x y => (x - ma) * (y - mb)) a b).sum /
    Real.sqrt ((a.map (fun x => (x - ma) ^ 2)).sum * (b.map (fun y => (y - mb) ^ 2)).sum)

/-- The Prais–Winsten transform of a series (lines 532–535):
first entry scaled by `sqrt(1-ρ²)`, later entries `y_t - ρ·y_{t-1}`. -/
noncomputable def pwSeries (rho : ℝ) : List ℝ → List ℝ
  | [] => []
  | a :: rest =>
    Real.sqrt (1 - rho ^ 2) * a ::
      List.zipWith (fun cur prev => cur - rho * prev) rest (a :: rest)

/-- The Prais–Winsten transform of design-matrix rows (lines 537–539):
first row scaled by `sqrt(1-ρ²)`, later rows `x_t - ρ·x_{t-1}` entrywise. -/
noncomputable def pwRows (rho : ℝ) : List (List ℝ) → List (List ℝ)
  | [] => []
  | r :: rest =>
    r.map (fun x => Real.sqrt (1 - rho ^ 2) * x) ::
      List.zipWith (fun cur prev => List.zipWith (fun c p => c - rho * p) cur prev)
        rest (r :: rest)

/-- The result dict of `estimate_fgls` (`self.results['fgls']`). -/
structure FglsRecord where
  beta : ℝ
  se : ℝ
  semiElasticity : ℝ
  rho : ℝ
  durbinWatson : ℝ
  nObs : Nat

/-- Regressors of the FGLS formula (lines 511–514). -/
def fglsXcols (st : ITSState) : List String :=
  [st.treatment, "D_star", "regime_merge", "regime_dencun",
    "is_weekend", "is_month_end"]

/-- The FGLS estimation sample (patsy `dmatrices` row drop). -/
def fglsUsed (st : ITSState) : Frame :=
  st.data.dropnaSubset (st.outcome :: fglsXcols st)

/-- The AR(1) coefficient estimate
`np.corrcoef(residuals[:-1], residuals[1:])[0, 1]` (line 524) from the
initial OLS residuals. -/
noncomputable def fglsRho (S : Stats) (st : ITSState) : ℝ :=
  let residuals := (S.olsFit (fglsUsed st) (fglsXcols st) st.outcome).resid
  sampleCorr residuals.dropLast residuals.tail

/-- The OLS fit on the Prais–Winsten-transformed arrays (lines 541–543). -/
noncomputable def fglsArrFit (S : Stats) (st : ITSState) : ArrFit :=
  S.olsArr (pwRows (fglsRho S st) (designRows (fglsUsed st) (fglsXcols st)))
    (pwSeries (fglsRho S st) (Frame.vals ((fglsUsed st).get st.outcome)))

/-- `estimate_fgls` (lines 502–573): initial OLS, ρ from the lag-1 sample
autocorrelation of its residuals, Prais–Winsten transform of `y` and `X`,
OLS on the transformed arrays; only the transformed-residual Durbin–Watson
is computed (attached to the record), and `self.diagnostics` is untouched.
`self.data` is not modified. -/
noncomputable def estimate_fgls (S : Stats) (st : ITSState) :
    FglsRecord × ITSState :=
  let used := fglsUsed st
  let rho := fglsRho S st
  let fglsRes := fglsArrFit S st
  let treatIdx := 1 + (fglsXcols st).indexOf st.treatment
  let beta := fglsRes.params.getD treatIdx 0
  let record : FglsRecord :=
    { beta := beta, se := fglsRes.bse.getD treatIdx 0,
      semiElasticity := semiElasticity beta,
      rho := rho,
      durbinWatson := S.durbinWatson fglsRes.resid,
      nObs := used.nRows }
  (record, st)

/-- The numeric part of the result dict of
`estimate_differences_robustness` (`self.results['differences']`; the
static translation-box text is out of scope). -/
structure DiffRecord where
  beta : ℝ
  se : ℝ
  nObs : Nat

/-- `estimate_differences_robustness` (lines 575–635): writes the three
difference columns into `self.data` (shared, mutable), fits
`d_log_base_fee ~ d_A_t + d_D_star` on `self.data.dropna()`.
`self.diagnostics` is untouched. -/
noncomputable def estimate_differences_robustness (S : Stats)
    (st : ITSState) : DiffRecord × ITSState :=
  let data1 := ((st.data.setCol "d_log_base_fee" (diffCol (st.data.get st.outcome))).setCol
      "d_A_t" (diffCol (st.data.get st.treatment))).setCol
      "d_D_star" (diffCol (st.data.get "D_star"))
  let used := data1.dropna
  let fit := S.hacFit used ["d_A_t", "d_D_star"] "d_log_base_fee"
    (hacBandwidth used.nRows)
  let record : DiffRecord :=
    { beta := fit.params "d_A_t", se := fit.bse "d_A_t", nObs := used.nRows }
  (record, { st with data := data1 })

/-! ## Cointegration & error-correction component (`src/src/analysis/11_ecm.py`)

`estimate_ecm` returns a plain Python dict; its key set differs between
the insufficient-data branch and the fitted branch, which is observable
downstream (`save_latex_ecm` indexes `res['bw']`).  Dicts are therefore
embedded as association lists over `PyR`. -/

/-- A Python dict with float-ish values, as returned by `estimate_ecm`. -/
abbrev PyDict := List (String × PyR)

/-- `res[key]`: a dict lookup that raises `KeyError(key)` when absent. -/
def dictGet (d : PyDict) (k : String) : Except String PyR :=
  match d.lookup k with
  | some v => Except.ok v
  | none => Except.error k

/-- `pd.Series.reindex` onto `range n`: positions beyond the original
length become `NaN`. -/
def reindexCol (c : Col) (n : Nat) : Col :=
  (List.range n).map (fun i => Frame.cellAt c i)

/-- The ECM half-life computation (lines 302–309 of `11_ecm.py`):
`np.log(0.5) / np.log(1 + phi)` guarded by `(1 + phi) > 0`, else `NaN`.
At `phi = 0` the denominator `np.log(1.0)` is exactly `0.0` and numpy
float division of the negative numerator by zero yields `-inf` (a
`RuntimeWarning`, not an exception). -/
noncomputable def halfLifeR (phi : ℝ) : PyR :=
  if 0 < 1 + phi then
    (if phi = 0 then PyR.neginf
     else PyR.num (Real.log 0.5 / Real.log (1 + phi)))
  else PyR.nan

/-- The all-`NaN` dict returned by `estimate_ecm` when the usable sample
has fewer than 30 rows (lines 278–283).  Note: it has **no** `"bw"` key,
unlike both the fitted dict (lines 311–315) and the placeholder built in
`main` (lines 556–560). -/
def smallEcmSummary (n : Nat) : PyDict :=
  [("phi", PyR.nan), ("phi_se", PyR.nan), ("phi_p", PyR.nan),
   ("psi", PyR.nan), ("psi_se", PyR.nan), ("psi_p", PyR.nan),
   ("n", PyR.num n), ("half_life_days", PyR.nan)]

/-- The "no cointegration — retained as Δ-spec" placeholder built in
`main` (lines 556–560). -/
def emptyEcmSummary : PyDict :=
  [("phi", PyR.nan), ("phi_se", PyR.nan), ("phi_p", PyR.nan),
   ("psi", PyR.nan), ("psi_se", PyR.nan), ("psi_p", PyR.nan),
   ("n", PyR.num 0), ("bw", PyR.nan), ("half_life_days", PyR.nan)]

/-- The frame `estimate_ecm` builds before row-dropping: `ECT` /
`ECT_lag1` from the reindexed long-run residuals, the Δ-terms for the
regressors present, and `d_log_base_fee` with its lag (lines 247–272). -/
def ecmFrame (df : Frame) (resid : Col) : Frame :=
  let n := df.nRows
  let residR := reindexCol resid n
  let f1 := (df.setCol "ECT" residR).setCol "ECT_lag1" (shiftCol 1 residR)
  let f2 := if f1.hasCol "A_t_clean" then
      f1.setCol "d_A_t_clean" (diffCol (f1.get "A_t_clean")) else f1
  let f3 := if f2.hasCol "D_star" then
      f2.setCol "d_D_star" (diffCol (f2.get "D_star")) else f2
  let f4 := if f3.hasCol "d_log_base_fee" then f3
    else f3.setCol "d_log_base_fee" (diffCol (f3.get "log_base_fee"))
  f4.setCol "d_log_base_fee_lag1" (shiftCol 1 (f4.get "d_log_base_fee"))

/-- The Δ-regressor term names present in the data (lines 255–261). -/
def ecmTerms (df : Frame) : List String :=
  (if df.hasCol "A_t_clean" then ["d_A_t_clean"] else []) ++
    (if df.hasCol "D_star" then ["d_D_star"] else [])

/-- The row-filtered estimation sample
`frame.dropna(subset=['d_log_base_fee', 'ECT_lag1'] + terms)` (line 277). -/
def ecmUseFrame (df : Frame) (resid : Col) : Frame :=
  (ecmFrame df resid).dropnaSubset ("d_log_base_fee" :: "ECT_lag1" :: ecmTerms df)

/-- The ECM formula regressors (lines 264–275): `ECT_lag1`, the Δ-terms,
the lagged Δ-outcome, then the calendar (and present event) controls. -/
def ecmXcols (df : Frame) (resid : Col) (eventControls : List String) :
    List String :=
  "ECT_lag1" :: ecmTerms df ++ ["d_log_base_fee_lag1"] ++
    (("is_weekend" :: "is_month_end" :: eventControls).filter
      (fun c => (ecmFrame df resid).hasCol c))

/-- The ECM HAC bandwidth `min(7, max(1, ⌊4(n/100)^{2/9}⌋))` (line 290). -/
noncomputable def ecmBw (n : Nat) : Nat := min 7 (max 1 (hacBandwidth n))

/-- `estimate_ecm` (lines 244–315): the Δ-spec regression of
`d_log_base_fee` on `ECT_lag1`, the Δ-terms, the lagged Δ-outcome and
calendar/event controls, with HAC bandwidth `min(7, max(1, ⌊4(n/100)^{2/9}⌋))`.
With fewer than 30 usable rows it returns `smallEcmSummary` instead of
fitting; `ψ` falls back to `NaN` when `d_A_t_clean` is not a regressor
(`params.get(..., np.nan)`). -/
noncomputable def estimate_ecm (S : Stats) (df : Frame) (resid : Col)
    (eventControls : List String) : PyDict :=
  let terms := ecmTerms df
  let use := ecmUseFrame df resid
  let n := use.nRows
  if n < 30 then smallEcmSummary n
  else
    let fit := S.hacFit use (ecmXcols df resid eventControls)
      "d_log_base_fee" (ecmBw n)
    let phi := fit.params "ECT_lag1"
    [("phi", PyR.num phi),
     ("phi_se", PyR.num (fit.bse "ECT_lag1")),
     ("phi_p", PyR.num (fit.pvalues "ECT_lag1")),
     ("psi", if "d_A_t_clean" ∈ terms then PyR.num (fit.params "d_A_t_clean") else PyR.nan),
     ("psi_se", if "d_A_t_clean" ∈ terms then PyR.num (fit.bse "d_A_t_clean") else PyR.nan),
     ("psi_p", if "d_A_t_clean" ∈ terms then PyR.num (fit.pvalues "d_A_t_clean") else PyR.nan),
     ("n", PyR.num n), ("bw", PyR.num (ecmBw n)),
     ("half_life_days", halfLifeR phi)]

/-- The cointegration gate in `main` (lines 555–562):
`np.isfinite(eg_p) and eg_p < 0.05`. -/
def egGate : PyR → Prop
  | PyR.num x => x < 0.05
  | _ => False

open Classical in
/-- `main`'s ECM step: the placeholder summary unless the full-sample
Engle–Granger p-value is finite and below 0.05, in which case
`estimate_ecm` runs (lines 555–562; the baseline call passes no event
controls). -/
noncomputable def ecmMainStep (S : Stats) (egP : PyR) (df : Frame)
    (resid : Col) : PyDict :=
  if egGate egP then estimate_ecm S df resid [] else emptyEcmSummary

/-- `save_latex_ecm` (lines 399–433) as far as dict access is concerned:
it reads `res['phi'] … res['psi_p']`, then `res['n'], res['bw'],
res['half_life_days']` before rendering; a missing key is a `KeyError`.
The rendered LaTeX text itself is out of scope. -/
def save_latex_ecm (res : PyDict) : Except String Unit := do
  let _ ← dictGet res "phi"
  let _ ← dictGet res "phi_se"
  let _ ← dictGet res "phi_p"
  let _ ← dictGet res "psi"
  let _ ← dictGet res "psi_se"
  let _ ← dictGet res "psi_p"
  let _ ← dictGet res "n"
  let _ ← dictGet res "bw"
  let _ ← dictGet res "half_life_days"
  pure ()

/-- One tidy output row of `johansen_tests`; the statistics come from the
external `coint_johansen` call. -/
structure JohRow where
  rankNull : String
  statType : String
  stat : ℝ
  crit90 : ℝ
  crit95 : ℝ
  crit99 : ℝ

/-- `johansen_tests` (lines 318–353): drop rows missing any of the tested
series; with fewer than 50 remaining rows return the explicit empty table
without calling the test; an exception inside `coint_johansen` (modelled
as `none`) also yields the empty table. -/
def johansen_tests (johExternal : Frame → Option (List JohRow))
    (df : Frame) (series : List String) : List JohRow :=
  let sub := df.dropnaSubset series
  if sub.nRows < 50 then []
  else (johExternal sub).getD []

/-! ## Local-projection IRF component (`src/src/analysis/12_irf_local_projections.py`) -/

/-- One row of the per-horizon IRF summary produced by `compute_irfs`
(the fields `compute_cumulative` reads: `h`, `beta`, `se`,
`ci_low_hac`/`ci_high_hac`, and the optional MBB interval). -/
structure IrfRow where
  h : Nat
  beta : ℝ
  se : ℝ
  ciLowHac : ℝ
  ciHighHac : ℝ
  mbb : Option (ℝ × ℝ)

/-- The `beta_cum` of `compute_cumulative` (lines 291–292):
`sub = summary[summary["h"] <= H]`, then `sub["beta"].sum()` — the sum of
point estimates over **all** horizons `h ≤ H`. -/
def betaCum (summary : List IrfRow) (H : Nat) : ℝ :=
  ((summary.filter (fun r => r.h ≤ H)).map (fun r => r.beta)).sum

/-- One output row of `compute_cumulative` for the log outcome
(lines 318–326). -/
structure CumRow where
  H : Nat
  betaCum : ℝ
  semi : ℝ
  semiCiLowDelta : ℝ
  semiCiHighDelta : ℝ
  semiCiLowCons : ℝ
  semiCiHighCons : ℝ

/-- `compute_cumulative` (lines 279–345, log-outcome branch): for each `H`
in the horizon set, sum `beta` over `h ≤ H`, map to the semi-elasticity,
build the delta-method interval from `sqrt(Σ se²)` (cross-horizon
covariances ignored), and the conservative interval by summing per-horizon
bounds (MBB bounds when complete, else the HAC bounds; the source stores
the MBB pair jointly, so one `Option` models its presence). -/
noncomputable def compute_cumulative (summary : List IrfRow)
    (horizons : List Nat) : List CumRow :=
  horizons.map (fun H =>
    let sub := summary.filter (fun r => r.h ≤ H)
    let bc := betaCum summary H
    let seCum := Real.sqrt ((sub.map (fun r => r.se ^ 2)).sum)
    let betaLow := bc - 1.96 * seCum
    let betaHigh := bc + 1.96 * seCum
    let mbbOk := sub.all (fun r => r.mbb.isSome)
    let bcLow := if mbbOk then (sub.map (fun r => ((r.mbb.getD (0, 0)).1))).sum
      else (sub.map (fun r => r.ciLowHac)).sum
    let bcHigh := if mbbOk then (sub.map (fun r => ((r.mbb.getD (0, 0)).2))).sum
      else (sub.map (fun r => r.ciHighHac)).sum
    { H := H, betaCum := bc,
      semi := semiElasticity bc,
      semiCiLowDelta := semiElasticity betaLow,
      semiCiHighDelta := semiElasticity betaHigh,
      semiCiLowCons := semiElasticity bcLow,
      semiCiHighCons := semiElasticity bcHigh })

/-- A per-horizon summary as `compute_irfs` produces it: exactly one row
for each horizon `h = 0 … N`, in order, with arbitrary fitted values. -/
def perHorizonSummary (beta se cl ch : Nat → ℝ) (mbb : Nat → Option (ℝ × ℝ))
    (N : Nat) : List IrfRow :=
  (List.range (N + 1)).map (fun h =>
    { h := h, beta := beta h, se := se h, ciLowHac := cl h, ciHighHac := ch h,
      mbb := mbb h })

/-- `pandas.Series.shift(k)` for a possibly negative `k` (a lead). -/
def shiftIntCol (k : ℤ) (c : Col) : Col :=
  if 0 ≤ k then shiftCol k.toNat c
  else c.drop (-k).toNat ++ List.replicate (min (-k).toNat c.length) none

/-- Python `round` for the nonnegative reals produced by `n**(1/3)`
(banker's rounding differs from `⌊x + 1/2⌋` only at exact halves, which
`n**(1/3)` never attains for `n ≥ 1` since `(2k+1)³/8` is not an
integer). -/
noncomputable def pyRound (x : ℝ) : Nat := Nat.floor (x + 1 / 2)

/-- A deterministic model of numpy's seeded PRNG
(`np.random.default_rng(seed)` / `rng.integers(0, hi)`): an arbitrary
implementation with explicit state threading. -/
structure RngImpl where
  State : Type
  init : Nat → State
  integers : State → Nat → Nat × State

/-- The block starts drawn by the `while` loop of one bootstrap
replication: `numDraws` successive `rng.integers(0, hi)` calls. -/
def drawStarts (R : RngImpl) (state : R.State) (numDraws hi : Nat) :
    List Nat × R.State :=
  (List.range numDraws).foldl
    (fun acc _ =>
      let v := R.integers acc.2 hi
      (acc.1 ++ [v.1], v.2))
    ([], state)

/-- The resample index list: blocks `start … start+block_len-1`
concatenated, truncated to the original length (lines 197–202). -/
def mbbIndices (blockLen nEff : Nat) (starts : List Nat) : List Nat :=
  ((starts.map (fun s => List.range' s blockLen)).flatten).take nEff

/-- Row `i` of a (fully observed) frame, as the list of its column values. -/
def rowAt (f : Frame) (i : Nat) : List ℝ :=
  f.map (fun c => (Frame.cellAt c.2 i).getD 0)

/-- `moving_block_bootstrap_irf` (lines 168–221).  External collaborators
are explicit parameters: `R` the seeded numpy PRNG, `olsRep` the per-
replication OLS returning the `d_A_t` coefficient (`none` models the
`except` branch / a missing coefficient, both of which the source filters
out), `percentile` numpy's percentile, and `ambient` the process-global
numpy RNG state — which the function never reads, because it builds its
own generator from `random_state` (line 174).  Fewer than
`max(30, B/2)` surviving replications yield `(NaN, NaN)`; otherwise the
2.5 / 97.5 percentiles of the surviving coefficients. -/
noncomputable def moving_block_bootstrap_irf (R : RngImpl)
    (olsRep : List (List ℝ) → Option ℝ) (percentile : List ℝ → ℝ → ℝ)
    (ambient : Nat) (df : Frame) (h : Nat) (B : Nat)
    (blockLen : Option Nat) (seed : Nat) : PyR × PyR :=
  let rng0 := R.init seed
  let n := df.nRows
  let bl := blockLen.getD (max 5 (pyRound ((n : ℝ) ^ ((1 : ℝ) / 3))))
  let out := df.get "log_base_fee"
  let y := List.zipWith optSub (shiftIntCol (-(h : ℤ)) out)
    (shiftIntCol (-(h : ℤ) + 1) out)
  let base : Frame :=
    Frame.dropna [("y_h", y), ("d_A_t", df.get "d_A_t"),
      ("d_D_star", df.get "d_D_star"), ("regime_merge", df.get "regime_merge"),
      ("regime_dencun", df.get "regime_dencun"),
      ("is_weekend", df.get "is_weekend"),
      ("is_month_end", df.get "is_month_end")]
  let nEff := base.nRows
  let numDraws := (nEff + bl - 1) / bl
  let betas := ((List.range B).foldl
    (fun (acc : List (Option ℝ) × R.State) _ =>
      let sDraw := drawStarts R acc.2 numDraws (nEff - bl + 1)
      let idx := mbbIndices bl nEff sDraw.1
      let sample := idx.map (fun i => rowAt base i)
      (acc.1 ++ [olsRep sample], sDraw.2))
    ([], rng0)).1
  let good := betas.filterMap id
  if good.length < max 30 (B / 2) then (PyR.nan, PyR.nan)
  else (PyR.num (percentile good 2.5), PyR.num (percentile good 97.5))

/-! ## Concrete instances used by counterexamples and witnesses -/

/-- A trivial fitted-model result (all statistics zero). -/
def zeroFit : FitResult :=
  { params := fun _ => 0, bse := fun _ => 0, pvalues := fun _ => 0,
    ciLower := fun _ => 0, ciUpper := fun _ => 0, resid := [],
    rsquared := 0, rsquaredAdj := 0 }

/-- A concrete deterministic statistics library returning `zeroFit`
everywhere (one admissible instantiation of the external collaborator). -/
def zeroStats : Stats :=
  { olsFit := fun _ _ _ => zeroFit, hacFit := fun _ _ _ _ => zeroFit,
    olsArr := fun _ _ => ⟨[], [], []⟩, ljungBox := fun _ _ => ([], []),
    hetWhite := fun _ _ => (0, 0), durbinWatson := fun _ => 0 }

/-- A fit whose coefficient on the lagged outcome is exactly 1 (ρ = 1)
and whose other coefficients are 2. -/
def rhoOneFit : FitResult :=
  { zeroFit with params := fun nm => if nm = "log_base_fee_lag1" then 1 else 2 }

/-- A statistics library whose HAC fit returns `rhoOneFit`. -/
def rhoOneStats : Stats := { zeroStats with hacFit := fun _ _ _ _ => rhoOneFit }

/-- A fit with ρ = 1/2 on the lagged outcome and 2 elsewhere. -/
noncomputable def halfRhoFit : FitResult :=
  { zeroFit with
    params := fun nm => if nm = "log_base_fee_lag1" then (1 : ℝ) / 2 else 2 }

/-- A statistics library whose HAC fit returns `halfRhoFit`. -/
noncomputable def halfRhoStats : Stats :=
  { zeroStats with hacFit := fun _ _ _ _ => halfRhoFit }

/-- A fully observed constant column of length `n`. -/
def onesCol (n : Nat) : Col := List.replicate n (some 1)

/-- A concrete 12-day prepared panel with every column the estimator's
formulas mention, fully observed. -/
def panel12 : Frame :=
  [("log_base_fee", onesCol 12), ("A_t_clean", onesCol 12),
   ("D_star", onesCol 12), ("regime_merge", onesCol 12),
   ("regime_dencun", onesCol 12), ("is_weekend", onesCol 12),
   ("is_month_end", onesCol 12)]

/-- A fresh estimator over `panel12` (no diagnostics computed yet). -/
def st12 : ITSState :=
  { data := panel12, outcome := "log_base_fee", treatment := "A_t_clean",
    diagnostics := none }

/-- The same estimator state with a (dummy) diagnostics store present. -/
def st12b : ITSState :=
  { st12 with diagnostics := some ⟨[], [], 0, 0, 0⟩ }

/-- A concrete 10-day panel for the ECM component. -/
def panelSmall : Frame :=
  [("log_base_fee", onesCol 10), ("A_t_clean", onesCol 10),
   ("D_star", onesCol 10), ("is_weekend", onesCol 10),
   ("is_month_end", onesCol 10)]

/-- Long-run residuals aligned to `panelSmall`. -/
def residSmall : Col := onesCol 10

/-- A concrete 40-day panel for the ECM component (39 usable rows). -/
def panel40 : Frame :=
  [("log_base_fee", onesCol 40), ("A_t_clean", onesCol 40),
   ("D_star", onesCol 40), ("is_weekend", onesCol 40),
   ("is_month_end", onesCol 40)]

/-- Long-run residuals aligned to `panel40`. -/
def resid40 : Col := onesCol 40

/-- A concrete per-horizon IRF summary for horizons 0…7 with
`β_h = h + 1` (so `β_1 = 2`, `β_7 = 8`). -/
def summary8 : List IrfRow :=
  [⟨0, 1, 0, 0, 0, none⟩, ⟨1, 2, 0, 0, 0, none⟩, ⟨2, 3, 0, 0, 0, none⟩,
   ⟨3, 4, 0, 0, 0, none⟩, ⟨4, 5, 0, 0, 0, none⟩, ⟨5, 6, 0, 0, 0, none⟩,
   ⟨6, 7, 0, 0, 0, none⟩, ⟨7, 8, 0, 0, 0, none⟩]

/-! ## Helper lemmas -/

/-- `zipWith (fun cur prev => cur - 0·prev)` is the identity on its first
argument when the second is at least as long. -/
theorem zipWith_sub_zero_mul (l ls : List ℝ) (h : l.length ≤ ls.length) :
    List.zipWith (fun cur prev => cur - (0 : ℝ) * prev) l ls = l := by
  induction l generalizing ls with
  | nil => simp
  | cons a t ih =>
    cases ls with
    | nil => simp at h
    | cons b ts =>
      rw [List.zipWith_cons_cons, zero_mul, sub_zero]
      congr 1
      exact ih ts (by simpa using h)

/-- The Prais–Winsten series transform at ρ = 0 is the identity. -/
theorem pwSeries_zero (y : List ℝ) : pwSeries 0 y = y := by
  cases y with
  | nil => rfl
  | cons a rest =>
    have h1 : Real.sqrt (1 - (0 : ℝ) ^ 2) = 1 := by norm_num
    simp only [pwSeries, h1, one_mul]
    rw [zipWith_sub_zero_mul rest (a :: rest) (by simp)]

/-- Row-wise `zipWith` of entrywise `(fun c q => c - 0·q)` is the identity
on its first argument over rectangular row lists. -/
theorem zipWith_rows_sub_zero (k : Nat) (l prev : List (List ℝ))
    (hl : ∀ r ∈ l, r.length = k) (hp : ∀ r ∈ prev, r.length = k)
    (hlen : l.length ≤ prev.length) :
    List.zipWith
      (fun cur p => List.zipWith (fun c q => c - (0 : ℝ) * q) cur p) l prev
      = l := by
  induction l generalizing prev with
  | nil => simp
  | cons a t ih =>
    cases prev with
    | nil => simp at hlen
    | cons b ts =>
      rw [List.zipWith_cons_cons,
        zipWith_sub_zero_mul a b (by rw [hl a (by simp), hp b (by simp)])]
      congr 1
      exact ih ts (fun r hr => hl r (List.mem_cons_of_mem a hr))
        (fun r hr => hp r (List.mem_cons_of_mem b hr)) (by simpa using hlen)

/-- The Prais–Winsten row transform at ρ = 0 is the identity on
rectangular design matrices. -/
theorem pwRows_zero (X : List (List ℝ)) (k : Nat)
    (hk : ∀ r ∈ X, r.length = k) : pwRows 0 X = X := by
  cases X with
  | nil => rfl
  | cons r rest =>
    have h1 : Real.sqrt (1 - (0 : ℝ) ^ 2) = 1 := by norm_num
    simp only [pwRows, h1]
    congr 1
    · simp
    · exact zipWith_rows_sub_zero k rest (r :: rest)
        (fun q hq => hk q (List.mem_cons_of_mem r hq)) hk (by simp)

/-! ## Claims -/

/-- Claim C7: applying the Prais–Winsten transform of `estimate_fgls` with
ρ = 0 (first row scaled by `sqrt(1-ρ²)`, subsequent rows `x_t - ρ·x_{t-1}`)
leaves the outcome vector and any rectangular design matrix unchanged, so
re-running OLS — whatever deterministic OLS implementation is plugged in —
reproduces the original OLS coefficient vector exactly. -/
theorem C7_fgls_prais_winsten_rho_zero_is_ols :
    ∀ (y : List ℝ) (X : List (List ℝ)) (k : Nat)
      (ols : List (List ℝ) → List ℝ → ArrFit),
      (∀ r ∈ X, r.length = k) →
      pwSeries 0 y = y ∧ pwRows 0 X = X ∧
        ols (pwRows 0 X) (pwSeries 0 y) = ols X y := by
  intro y X k ols hX
  refine ⟨pwSeries_zero y, pwRows_zero X k hX, ?_⟩
  rw [pwSeries_zero y, pwRows_zero X k hX]

/-- Witness for C7 at a concrete outcome vector and 2×2 design matrix. -/
theorem C7_fgls_prais_winsten_rho_zero_is_ols_witness :
    pwSeries 0 [(1 : ℝ), 2, 3] = [1, 2, 3] ∧
      pwRows 0 [[(1 : ℝ), 2], [3, 4]] = [[1, 2], [3, 4]] := by
  have h := C7_fgls_prais_winsten_rho_zero_is_ols [(1 : ℝ), 2, 3]
    [[(1 : ℝ), 2], [3, 4]] 2 (fun _ _ => ⟨[], [], []⟩) (by
      intro r hr
      simp only [List.mem_cons, List.not_mem_nil, or_false] at hr
      rcases hr with rfl | rfl <;> rfl)
  exact ⟨h.1, h.2.1⟩

/-- Claim C8: for β = 0 the semi-elasticity transform
`100·(exp(0.10·β) - 1)` equals exactly 0, and the delta-method standard
error `10·exp(0.10·β)·SE(β)` equals exactly `10·SE(β)` for every SE(β). -/
theorem C8_semi_elasticity_delta_method_at_zero :
    semiElasticity 0 = 0 ∧ ∀ se : ℝ, delta_method_se 0 se = 10 * se := by
  constructor
  · simp [semiElasticity]
  · intro se
    simp [delta_method_se]

/-- Claim C10: the moving-block bootstrap is a deterministic function of
the input frame, horizon, replication count, block length and seed — it
builds its own generator from the seed and never reads the ambient
process-global RNG state, so two independent runs with identical inputs
(and arbitrary, possibly different, ambient states) produce bit-identical
2.5/97.5 percentile bounds, for every PRNG implementation, per-replication
OLS, and percentile routine. -/
theorem C10_bootstrap_deterministic_fixed_seed :
    ∀ (R : RngImpl) (olsRep : List (List ℝ) → Option ℝ)
      (percentile : List ℝ → ℝ → ℝ) (amb1 amb2 : Nat) (df : Frame)
      (h B : Nat) (blockLen : Option Nat) (seed : Nat),
      moving_block_bootstrap_irf R olsRep percentile amb1 df h B blockLen seed
        = moving_block_bootstrap_irf R olsRep percentile amb2 df h B blockLen seed :=
  fun _ _ _ _ _ _ _ _ _ _ => rfl

/-- Refutation of claim C3 as stated: on the concrete 12-day panel,
`estimate_koyck_lag` fits 11 observations when called first, but only 5
when `estimate_distributed_lags([1, 7])` ran before on the same estimator
instance — the lag columns written into the shared `self.data` shrink the
later `dropna()` sample — so the returned records differ. -/
theorem C3_counterexample :
    ((estimate_koyck_lag zeroStats false st12).1).nObs = 11 ∧
    ((estimate_koyck_lag zeroStats false
        ((estimate_distributed_lags zeroStats [1, 7] st12).2)).1).nObs = 5 ∧
    (estimate_koyck_lag zeroStats false st12).1 ≠
      (estimate_koyck_lag zeroStats false
        ((estimate_distributed_lags zeroStats [1, 7] st12).2)).1 := by
  refine ⟨rfl, rfl, fun hEq => ?_⟩
  have h1 : ((estimate_koyck_lag zeroStats false st12).1).nObs = 11 := rfl
  have h2 : ((estimate_koyck_lag zeroStats false
      ((estimate_distributed_lags zeroStats [1, 7] st12).2)).1).nObs = 5 := rfl
  rw [hEq, h2] at h1
  omega

/-- Claim C3, amended: each estimation operation is a deterministic (pure)
function of the estimator's current data frame and column configuration —
in particular it does not read the shared diagnostics store — but it is
not a pure function of the original panel, because earlier operations
mutate the shared frame (see the counterexample). -/
theorem C3_koyck_pure_in_current_frame :
    ∀ (S : Stats) (tr : Bool) (st1 st2 : ITSState),
      st1.data = st2.data → st1.outcome = st2.outcome →
      st1.treatment = st2.treatment →
      (estimate_koyck_lag S tr st1).1 = (estimate_koyck_lag S tr st2).1 := by
  rintro S tr ⟨d1, o1, t1, g1⟩ ⟨d2, o2, t2, g2⟩ h1 h2 h3
  simp only at h1 h2 h3
  subst h1; subst h2; subst h3
  rfl

/-- Witness for the amended C3: two states sharing the panel but differing
in the diagnostics store yield identical Koyck records. -/
theorem C3_koyck_pure_in_current_frame_witness :
    (estimate_koyck_lag zeroStats false st12).1 =
      (estimate_koyck_lag zeroStats false st12b).1 :=
  C3_koyck_pure_in_current_frame zeroStats false st12 st12b rfl rfl rfl

/-- Refutation of claim C4 as stated: on the concrete 12-day panel, after
`estimate_distributed_lags`, `estimate_koyck_lag`, `estimate_fgls` and
`estimate_differences_robustness` the estimator's diagnostics store is
still empty — none of these operations computed the Ljung–Box, White or
Durbin–Watson diagnostics (only `estimate_main_spec` does). -/
theorem C4_counterexample :
    ((estimate_distributed_lags zeroStats [1, 7] st12).2).diagnostics = none ∧
    ((estimate_koyck_lag zeroStats false st12).2).diagnostics = none ∧
    ((estimate_fgls zeroStats st12).2).diagnostics = none ∧
    ((estimate_differences_robustness zeroStats st12).2).diagnostics = none :=
  ⟨rfl, rfl, rfl, rfl⟩

/-- Claim C4, amended: only `estimate_main_spec` runs the three residual
diagnostics, storing them on the estimator's shared diagnostics attribute
(not on the returned record); `estimate_distributed_lags`,
`estimate_koyck_lag`, `estimate_fgls` and
`estimate_differences_robustness` leave the diagnostics store untouched,
and of the three diagnostics `estimate_fgls` computes only the
Durbin–Watson statistic of its transformed residuals, which it does attach
to its record. -/
theorem C4_diagnostics_only_after_main_spec :
    ∀ (S : Stats) (tr : Bool) (lags : List Nat) (st : ITSState),
      ((estimate_main_spec S tr st).2).diagnostics =
        some (run_diagnostics S
          (S.olsFit (mainUsed st tr) (mainXcols st tr) st.outcome)
          (designRows (mainUsed st tr) (mainXcols st tr))) ∧
      ((estimate_distributed_lags S lags st).2).diagnostics = st.diagnostics ∧
      ((estimate_koyck_lag S tr st).2).diagnostics = st.diagnostics ∧
      ((estimate_fgls S st).2).diagnostics = st.diagnostics ∧
      ((estimate_differences_robustness S st).2).diagnostics = st.diagnostics ∧
      (estimate_fgls S st).1.durbinWatson =
        S.durbinWatson (fglsArrFit S st).resid :=
  fun _ _ _ _ => ⟨rfl, rfl, rfl, rfl, rfl, rfl⟩

/-- Refutation of claim C5 as stated: with a fit returning persistence
ρ = 1 on the concrete panel, the Koyck long-run effect is reported as
`np.nan` itself — the missing-data NaN, not a sentinel distinct from it. -/
theorem C5_counterexample :
    koyckRho rhoOneStats false st12 = 1 ∧
    ((estimate_koyck_lag rhoOneStats false st12).1).longRunEffect = PyR.nan := by
  refine ⟨rfl, ?_⟩
  show (estimate_koyck_lag rhoOneStats false st12).1.longRunEffect = PyR.nan
  have hrho : koyckRho rhoOneStats false st12 = 1 := rfl
  simp only [estimate_koyck_lag]
  rw [hrho, if_neg (lt_irrefl (1 : ℝ))]

/-- Claim C5, amended: the Koyck long-run effect equals
`short_run/(1-ρ)` whenever the estimated persistence ρ is < 1; whenever
ρ ≥ 1 it is reported as `np.nan` (the same value as a missing-data NaN,
not a distinct sentinel), and in both cases the operation returns a record
rather than raising. -/
theorem C5_koyck_long_run :
    ∀ (S : Stats) (tr : Bool) (st : ITSState),
      (koyckRho S tr st < 1 →
        ((estimate_koyck_lag S tr st).1).longRunEffect =
          PyR.num (koyckShort S tr st / (1 - koyckRho S tr st))) ∧
      (1 ≤ koyckRho S tr st →
        ((estimate_koyck_lag S tr st).1).longRunEffect = PyR.nan) := by
  intro S tr st
  constructor
  · intro h
    simp only [estimate_koyck_lag]
    rw [if_pos h]
  · intro h
    simp only [estimate_koyck_lag]
    rw [if_neg (not_lt.mpr h)]

/-- Witness for the amended C5: the ρ = 1/2 fit yields the finite
long-run multiplier `2/(1 - 1/2)` and the ρ = 1 fit yields `NaN`. -/
theorem C5_koyck_long_run_witness :
    ((estimate_koyck_lag halfRhoStats false st12).1).longRunEffect =
      PyR.num (2 / (1 - 1 / 2)) ∧
    ((estimate_koyck_lag rhoOneStats false st12).1).longRunEffect = PyR.nan := by
  constructor
  · have hr : koyckRho halfRhoStats false st12 = 1 / 2 := rfl
    exact (C5_koyck_long_run halfRhoStats false st12).1 (by rw [hr]; norm_num)
  · have hr : koyckRho rhoOneStats false st12 = 1 := rfl
    exact (C5_koyck_long_run rhoOneStats false st12).2 (by rw [hr])

/-- Refutation of claim C6 as stated: at φ = 0 we have 1 + φ > 0, yet the
reported half-life is `np.log(0.5)/np.log(1.0) = -inf` — not a
well-defined finite value — so finiteness does not hold "exactly when
1 + φ > 0". -/
theorem C6_counterexample :
    (0 : ℝ) < 1 + 0 ∧ halfLifeR 0 = PyR.neginf ∧
      (halfLifeR 0).isFinite = false := by
  have h : halfLifeR 0 = PyR.neginf := by
    unfold halfLifeR
    rw [if_pos (by norm_num : (0 : ℝ) < 1 + 0), if_pos rfl]
  exact ⟨by norm_num, h, by rw [h]; rfl⟩

/-- Claim C6, amended: the ECM half-life equals `ln(0.5)/ln(1+φ)` and is
finite exactly when 1 + φ > 0 **and** φ ≠ 0; when 1 + φ ≤ 0 it is
reported as `NaN`, and at φ = 0 (where 1 + φ > 0) it is `-inf`, rendered
as undefined rather than a number. -/
theorem C6_half_life :
    ∀ phi : ℝ,
      ((halfLifeR phi).isFinite = true ↔ (0 < 1 + phi ∧ phi ≠ 0)) ∧
      (0 < 1 + phi → phi ≠ 0 →
        halfLifeR phi = PyR.num (Real.log 0.5 / Real.log (1 + phi))) ∧
      (1 + phi ≤ 0 → halfLifeR phi = PyR.nan) := by
  intro phi
  unfold halfLifeR
  by_cases h1 : 0 < 1 + phi
  · by_cases h2 : phi = 0
    · rw [if_pos h1, if_pos h2]
      refine ⟨?_, fun _ hne => absurd h2 hne, fun hle => absurd h1 (not_lt.mpr hle)⟩
      simp [PyR.isFinite, h2]
    · rw [if_pos h1, if_neg h2]
      refine ⟨?_, fun _ _ => rfl, fun hle => absurd h1 (not_lt.mpr hle)⟩
      simp [PyR.isFinite, h1, h2]
  · rw [if_neg h1]
    refine ⟨?_, fun hp => absurd hp h1, fun _ => rfl⟩
    simp [PyR.isFinite, h1]

/-- Witness for the amended C6: a finite half-life at φ = -1/2 and the
`NaN` report at φ = -2. -/
theorem C6_half_life_witness :
    halfLifeR (-(1 : ℝ) / 2) =
      PyR.num (Real.log 0.5 / Real.log (1 + -(1 : ℝ) / 2)) ∧
    halfLifeR (-2) = PyR.nan :=
  ⟨(C6_half_life (-(1 : ℝ) / 2)).2.1 (by norm_num) (by norm_num),
   (C6_half_life (-2)).2.2 (by norm_num)⟩

/-- Refutation of claim C1 as stated: on a per-horizon summary with point
estimates `β_h = h + 1` (h = 0…7), the cumulative aggregation over the
horizon set {1, 7} returns `beta_cum` values 3 (= β₀+β₁) and
36 (= β₀+⋯+β₇); neither equals the sum β₁ + β₇ = 10 of the h = 1 and
h = 7 point estimates. -/
theorem C1_counterexample :
    ((summary8.find? (fun r => r.h = 1)).map (fun r => r.beta)) = some 2 ∧
    ((summary8.find? (fun r => r.h = 7)).map (fun r => r.beta)) = some 8 ∧
    (compute_cumulative summary8 [1, 7]).map (fun r => r.betaCum) = [3, 36] ∧
    (3 : ℝ) ≠ 2 + 8 ∧ (36 : ℝ) ≠ 2 + 8 := by
  refine ⟨rfl, rfl, ?_, by norm_num, by norm_num⟩
  show [betaCum summary8 1, betaCum summary8 7] = [3, 36]
  have h1 : betaCum summary8 1 = 3 := by
    norm_num [betaCum, summary8]
  have h7 : betaCum summary8 7 = 36 := by
    norm_num [betaCum, summary8]
  rw [h1, h7]

/-- Restricting `range (N+1)` to the indices `≤ H` gives `range (H+1)`
when `H ≤ N`. -/
theorem filter_le_range (H N : Nat) (h : H ≤ N) :
    (List.range (N + 1)).filter (fun i => i ≤ H) = List.range (H + 1) := by
  induction N with
  | zero =>
    have h0 : H = 0 := Nat.le_zero.mp h
    subst h0
    rfl
  | succ n ih =>
    by_cases hn : H ≤ n
    · rw [List.range_succ, List.filter_append, ih hn]
      have hne : ¬(n + 1 ≤ H) := by omega
      simp [hne]
    · have hEq : H = n + 1 := by omega
      subst hEq
      rw [List.filter_eq_self.mpr]
      intro a ha
      rw [List.mem_range] at ha
      simp only [decide_eq_true_eq]
      omega

/-- On a per-horizon summary with one row per `h = 0…N`, the `beta_cum`
of `compute_cumulative` at `H ≤ N` is the sum of the point estimates for
all horizons 0 through H. -/
theorem betaCum_perHorizonSummary (beta se cl ch : Nat → ℝ)
    (mbb : Nat → Option (ℝ × ℝ)) (N H : Nat) (h : H ≤ N) :
    betaCum (perHorizonSummary beta se cl ch mbb N) H
      = ((List.range (H + 1)).map beta).sum := by
  unfold betaCum perHorizonSummary
  rw [List.filter_map, List.map_map]
  show (((List.range (N + 1)).filter (fun i => i ≤ H)).map beta).sum = _
  rw [filter_le_range H N h]

/-- Claim C1, amended: for each `H` in the requested horizon set, the
`beta_cum` returned by the cumulative aggregation equals the sum of the
per-horizon point estimates over **all** horizons `h = 0 … H` (the
through-`H` cumulative effect), not the sum of the listed horizons'
estimates alone. -/
theorem C1_cumulative_sums_all_horizons_through_H :
    ∀ (beta se cl ch : Nat → ℝ) (mbb : Nat → Option (ℝ × ℝ)) (N : Nat)
      (horizons : List Nat), (∀ H ∈ horizons, H ≤ N) →
      (compute_cumulative (perHorizonSummary beta se cl ch mbb N) horizons).map
          (fun r => r.betaCum)
        = horizons.map (fun H => ((List.range (H + 1)).map beta).sum) := by
  intro beta se cl ch mbb N horizons hH
  unfold compute_cumulative
  rw [List.map_map]
  apply List.map_congr_left
  intro H hmem
  show betaCum (perHorizonSummary beta se cl ch mbb N) H
    = ((List.range (H + 1)).map beta).sum
  exact betaCum_perHorizonSummary beta se cl ch mbb N H (hH H hmem)

/-- Witness for the amended C1 on the horizon set {1, 7} over the
summary with `β_h = h + 1`. -/
theorem C1_cumulative_sums_all_horizons_through_H_witness :
    (compute_cumulative
        (perHorizonSummary (fun h => (h : ℝ) + 1) (fun _ => 0) (fun _ => 0)
          (fun _ => 0) (fun _ => none) 7) [1, 7]).map (fun r => r.betaCum)
      = [1, 7].map (fun H => ((List.range (H + 1)).map (fun h => (h : ℝ) + 1)).sum) :=
  C1_cumulative_sums_all_horizons_through_H (fun h => (h : ℝ) + 1) (fun _ => 0)
    (fun _ => 0) (fun _ => 0) (fun _ => none) 7 [1, 7] (by decide)

/-- Refutation of claim C2 as stated: the gate does pass an Engle–Granger
p-value of 0.01 on to `estimate_ecm`, but on the concrete 10-day panel
(9 usable rows) the returned "ECM" has φ = NaN — not a concrete fitted
ECM with finite φ — even though p < 0.05. -/
theorem C2_counterexample :
    egGate (PyR.num 0.01) ∧
    dictGet (ecmMainStep zeroStats (PyR.num 0.01) panelSmall residSmall) "phi"
      = Except.ok PyR.nan ∧
    PyR.nan.isFinite = false := by
  have hg : egGate (PyR.num 0.01) := by norm_num [egGate]
  refine ⟨hg, ?_, rfl⟩
  unfold ecmMainStep
  rw [if_pos hg]
  rfl

/-- Claim C2, amended: the routine returns the explicit "no cointegration
— retained as Δ-spec" placeholder whenever the Engle–Granger p-value is
≥ 0.05 or not finite, and hands over to `estimate_ecm` whenever it is
finite and < 0.05; `estimate_ecm` then returns a fitted ECM (φ taken from
the HAC fit) only when the usable sample has at least 30 rows, and
otherwise returns the all-NaN insufficient-data record. -/
theorem C2_cointegration_gate :
    ∀ (S : Stats) (egP : PyR) (df : Frame) (resid : Col),
      (¬egGate egP → ecmMainStep S egP df resid = emptyEcmSummary) ∧
      (egGate egP → ecmMainStep S egP df resid = estimate_ecm S df resid []) ∧
      ((ecmUseFrame df resid).nRows < 30 →
        estimate_ecm S df resid [] = smallEcmSummary (ecmUseFrame df resid).nRows) ∧
      (30 ≤ (ecmUseFrame df resid).nRows →
        dictGet (estimate_ecm S df resid []) "phi"
          = Except.ok (PyR.num ((S.hacFit (ecmUseFrame df resid)
              (ecmXcols df resid []) "d_log_base_fee"
              (ecmBw (ecmUseFrame df resid).nRows)).params "ECT_lag1"))) := by
  intro S egP df resid
  refine ⟨fun h => ?_, fun h => ?_, fun h => ?_, fun h => ?_⟩
  · unfold ecmMainStep
    rw [if_neg h]
  · unfold ecmMainStep
    rw [if_pos h]
  · unfold estimate_ecm
    rw [if_pos h]
  · unfold estimate_ecm
    rw [if_neg (not_lt.mpr h)]
    rfl

/-- Witness for the amended C2: the four cases at concrete inputs (a
gated-out p-value, a passing p-value, the 9-row usable sample, and a
39-row usable sample). -/
theorem C2_cointegration_gate_witness :
    ecmMainStep zeroStats (PyR.num 0.2) panelSmall residSmall = emptyEcmSummary ∧
    ecmMainStep zeroStats (PyR.num 0.01) panelSmall residSmall
      = estimate_ecm zeroStats panelSmall residSmall [] ∧
    estimate_ecm zeroStats panelSmall residSmall []
      = smallEcmSummary (ecmUseFrame panelSmall residSmall).nRows ∧
    dictGet (estimate_ecm zeroStats panel40 resid40 []) "phi"
      = Except.ok (PyR.num ((zeroStats.hacFit (ecmUseFrame panel40 resid40)
          (ecmXcols panel40 resid40 []) "d_log_base_fee"
          (ecmBw (ecmUseFrame panel40 resid40).nRows)).params "ECT_lag1")) :=
  ⟨(C2_cointegration_gate zeroStats (PyR.num 0.2) panelSmall residSmall).1
      (by norm_num [egGate]),
   (C2_cointegration_gate zeroStats (PyR.num 0.01) panelSmall residSmall).2.1
      (by norm_num [egGate]),
   (C2_cointegration_gate zeroStats (PyR.num 0) panelSmall residSmall).2.2.1
      (by decide),
   (C2_cointegration_gate zeroStats (PyR.num 0) panel40 resid40).2.2.2
      (by decide)⟩

/-- Claim C9 (code bug): with fewer than 50 usable rows `johansen_tests`
does return the explicit empty table without raising, but the
insufficient-data record of `estimate_ecm` (usable sample < 30) lacks the
`'bw'` key that every other ECM summary carries, so when the gate passes
(p < 0.05) `main`'s unconditional `save_latex_ecm` call reads `res['bw']`
and raises a `KeyError` that aborts the batch run. -/
theorem C9_missing_bw_key_aborts_batch :
    johansen_tests (fun _ => none) panelSmall
        ["log_base_fee", "A_t_clean", "D_star"] = [] ∧
    egGate (PyR.num 0.01) ∧
    (estimate_ecm zeroStats panelSmall residSmall []).lookup "bw" = none ∧
    save_latex_ecm (ecmMainStep zeroStats (PyR.num 0.01) panelSmall residSmall)
      = Except.error "bw" := by
  have hg : egGate (PyR.num 0.01) := by norm_num [egGate]
  refine ⟨rfl, hg, rfl, ?_⟩
  unfold ecmMainStep
  rw [if_pos hg]
  rfl

end L2L1
